import Mathlib

/-!
Verification development for the packup asset pipeline
(`assets.ts`, `util.ts`, `deps.ts`).

The TypeScript source is shallowly embedded: JavaScript strings become
Lean `String` values and the character-level JavaScript string builtins
(`includes`, `replace` with a string pattern, `trim`, `split`, `match`
against a simple pattern) are reimplemented on `List Char`.  The mutable
DOM tree of `deno_dom` is modelled as a list of elements in document
order, with attribute mutation made explicit by threading the list
through every operation.  External collaborators that live outside the
repository (the md5 digest from `crypto.subtle`, the esbuild bundler,
the sass compiler, the DOM parser/serializer, `Deno.readFile` and the
text encoder/decoder) enter the model as components of an explicit
environment record, matching the interface-boundary description of the
specification.  Fallible operations (file reads, the bundler, the sass
compiler, constructor throws) return `Option`.
-/

namespace Packup

/-! ### JavaScript string primitives, on `List Char` -/

/-- Test whether the pattern occurs as a contiguous substring, the test
behind `String.prototype.includes`. -/
def occursIn (p : List Char) : List Char → Bool
  | [] => p = []
  | c :: s => p.isPrefixOf (c :: s) || occursIn p s

/-- First-literal-occurrence replacement: `s.replace(p, r)` where `p` is
a plain string pattern, which JavaScript replaces at the first match
only. -/
def replaceFirstList (p r : List Char) : List Char → List Char
  | [] => if p = [] then r else []
  | c :: s =>
    if p.isPrefixOf (c :: s) then r ++ (c :: s).drop p.length
    else c :: replaceFirstList p r s

/-- Wildcard character comparison for the pattern fragment used by the
source: in a regular expression a literal character matches itself and
a dot matches any character. -/
def reCharMatch (pc c : Char) : Bool := pc = '.' || pc = c

/-- Does the pattern match a prefix of the string, with dot as a
single-character wildcard. -/
def rePrefixMatch : List Char → List Char → Bool
  | [], _ => true
  | _ :: _, [] => false
  | pc :: p, c :: s => reCharMatch pc c && rePrefixMatch p s

/-- Search for a pattern match anywhere in the string.  This models
`str.match(pattern)` (truthiness of the result) for patterns that
contain no regular-expression metacharacter other than the dot, which
is the case for the file-path sources the code feeds to it. -/
def reSearch (p : List Char) : List Char → Bool
  | [] => p.isEmpty
  | c :: s => rePrefixMatch p (c :: s) || reSearch p s

/-- Split on a separator character, the behaviour of
`String.prototype.split` with a one-character separator string. -/
def splitOnChar (sep : Char) : List Char → List (List Char)
  | [] => [[]]
  | c :: rest =>
    let r := splitOnChar sep rest
    if c = sep then [] :: r
    else
      match r with
      | h :: t => (c :: h) :: t
      | [] => [[c]]

/-- Whitespace trimming from both ends, `String.prototype.trim`. -/
def jsTrimList (s : List Char) : List Char :=
  ((s.dropWhile Char.isWhitespace).reverse.dropWhile Char.isWhitespace).reverse

/-! ### String wrappers -/

/-- Boolean substring test, `haystack.includes(needle)`. -/
def jsIncludes (s p : String) : Bool := occursIn p.data s.data

/-- First-occurrence string replacement, `s.replace(p, r)` with a string
pattern. -/
def jsReplaceFirst (s p r : String) : String :=
  String.mk (replaceFirstList p.data r.data s.data)

/-- Truthiness of `s.match(p)` with the string `p` used as a regular
expression, for metacharacter-free patterns (dot allowed). -/
def jsRegexTest (p s : String) : Bool := reSearch p.data s.data

/-- Boolean test that a string starts with the given literal. -/
def strStartsWith (s p : String) : Bool := p.data.isPrefixOf s.data

/-- Boolean test that a string ends with the given literal. -/
def strEndsWith (s p : String) : Bool := p.data.reverse.isPrefixOf s.data.reverse

/-- Drop the last `n` characters of a string. -/
def strDropRight (s : String) (n : Nat) : String :=
  String.mk (s.data.take (s.data.length - n))

/-! ### util.ts -/

/-- Source `isLocalUrl` from util.ts: a URL is local unless it starts
with an http or https scheme. -/
def isLocalUrl (url : String) : Bool :=
  !(strStartsWith url ("http://") || strStartsWith url ("https://"))

/-! ### Path handling (deno std path module, posix flavour)

The source imports `join`, `basename`, `dirname` from the standard path
module (resolved to the posix implementation on the host platform) and
`posixPathJoin` from the posix module explicitly.  The std functions
join the segments with a slash and then normalize the result. -/

/-- Segment normalization from the std path module: empty and
single-dot segments vanish; a double-dot segment pops the previous one
unless there is none (in which case it is kept only for relative
paths). -/
def normalizeSegs : List String → Bool → List String → List String
  | [], _, acc => acc
  | s :: rest, allowAbove, acc =>
    if s = "" ∨ s = "." then normalizeSegs rest allowAbove acc
    else if s = ".." then
      if acc ≠ [] ∧ acc.getLast? ≠ some ("..") then
        normalizeSegs rest allowAbove acc.dropLast
      else if allowAbove then normalizeSegs rest allowAbove (acc ++ [s])
      else normalizeSegs rest allowAbove acc
    else normalizeSegs rest allowAbove (acc ++ [s])

/-- Join a list of path segments with slashes. -/
def intercalateSlash : List String → List Char
  | [] => []
  | [s] => s.data
  | s :: rest => s.data ++ '/' :: intercalateSlash rest

/-- Posix path normalization from the std path module. -/
def posixNormalize (p : String) : String :=
  if p.data = [] then "."
  else
    let isAbs := strStartsWith p ("/")
    let trailing := strEndsWith p ("/")
    let segs := normalizeSegs (splitOnChar '/' p.data |>.map String.mk) (!isAbs) []
    let body := String.mk (intercalateSlash segs)
    let body := if body = "" ∧ ¬ isAbs then "." else body
    let body := if body ≠ "" ∧ trailing then body ++ "/" else body
    if isAbs then "/" ++ body else body

/-- Two-argument posix path join from the std path module: concatenate
the non-empty arguments with a slash and normalize; with no non-empty
argument the result is the current directory. -/
def posixPathJoin (a b : String) : String :=
  let joined := if a = "" then b else if b = "" then a else a ++ "/" ++ b
  if joined = "" then "." else posixNormalize joined

/-- Platform path join; the host runs the posix implementation. -/
def pathJoin (a b : String) : String := posixPathJoin a b

/-- Last path component (posix `basename`): the part after the final
slash, ignoring trailing slashes. -/
def basename (p : String) : String :=
  let cs := p.data.reverse.dropWhile (· = '/')
  String.mk ((cs.takeWhile (· ≠ '/')).reverse)

/-- Containing directory (posix `dirname`). -/
def dirname (p : String) : String :=
  let cs := p.data.reverse.dropWhile (· = '/')
  let rest := (cs.dropWhile (· ≠ '/')).dropWhile (· = '/')
  if rest = [] then (if p.data.headD ' ' = '/' then "/" else ".") else String.mk rest.reverse

/-! ### UTF-8 encoding (TextEncoder) -/

/-- UTF-8 encoding of a single character. -/
def utf8EncodeChar (c : Char) : List Nat :=
  let n := c.toNat
  if n < 0x80 then [n]
  else if n < 0x800 then [0xC0 + n / 64, 0x80 + n % 64]
  else if n < 0x10000 then [0xE0 + n / 4096, 0x80 + (n / 64) % 64, 0x80 + n % 64]
  else [0xF0 + n / 262144, 0x80 + (n / 4096) % 64, 0x80 + (n / 64) % 64, 0x80 + n % 64]

/-- UTF-8 encoding of a string, `encoder.encode` from util.ts. -/
def utf8Encode (s : String) : List Nat :=
  (s.data.map utf8EncodeChar).flatten

/-! ### Document model (deno_dom, at the interface boundary)

A document is the list of its elements in document order; an element is
its (uppercase) tag name together with its attribute list.  Assets keep
the index of their owning element, mirroring the node references the
source classes hold, and every mutation threads the document. -/

/-- A DOM element: uppercase tag name plus attributes. -/
structure Element where
  tagName : String
  attrs : List (String × String)
  deriving DecidableEq

/-- A parsed document, flattened to its elements in document order. -/
abbrev Doc := List Element

/-- Fallback element for out-of-range node handles. -/
def emptyElement : Element := { tagName := "", attrs := [] }

/-- Attribute lookup on an attribute list. -/
def lookupAttr (n : String) : List (String × String) → Option String
  | [] => none
  | (k, v) :: rest => if k = n then some v else lookupAttr n rest

/-- Source `getAttribute`: the attribute value, or null when absent. -/
def getAttribute (el : Element) (n : String) : Option String :=
  lookupAttr n el.attrs

/-- Source `setAttribute`: overwrite an existing attribute in place, or
append a new one. -/
def setAttribute (el : Element) (n v : String) : Element :=
  if el.attrs.any (fun kv => kv.1 = n) then
    { el with attrs := el.attrs.map (fun kv => if kv.1 = n then (n, v) else kv) }
  else
    { el with attrs := el.attrs ++ [(n, v)] }

/-- Replace the element at an index, leaving the rest of the document
unchanged.  Models mutation through a retained node reference. -/
def updateAt : Doc → Nat → (Element → Element) → Doc
  | [], _, _ => []
  | e :: rest, 0, f => f e :: rest
  | e :: rest, n + 1, f => e :: updateAt rest n f

/-- Total element access with the empty element as fallback. -/
def getElemD : Doc → Nat → Element
  | [], _ => emptyElement
  | e :: _, 0 => e
  | _ :: rest, n + 1 => getElemD rest n

/-- JavaScript falsiness of a nullable string: null or empty. -/
def jsFalsyOpt : Option String → Bool
  | none => true
  | some s => s = ""

/-! ### External collaborators

The pieces the repository delegates to — file reads, the md5 digest,
the esbuild bundler, the sass compiler, the DOM parser and the
`outerHTML` serializer, the text decoder — are modelled as an explicit
environment, each at the interface the specification gives it. -/

/-- Environment of external collaborators for one build. -/
structure Env where
  /-- `Deno.readFile`: bytes of a path, or a thrown error. -/
  fs : String → Option (List Nat)
  /-- The md5 digest from util.ts, a deterministic hex string of the
  input bytes, computed by the platform crypto. -/
  digest : List Nat → String
  /-- `bundleByEsbuild`: bundled bytes of a script entry, fallible. -/
  bundle : String → Option (List Nat)
  /-- The sass compiler from sass_util.ts, fallible. -/
  compileSass : String → Option (List Nat)
  /-- `decoder.decode` from util.ts. -/
  decode : List Nat → String
  /-- `DOMParser.parseFromString`, flattened to document order. -/
  parse : String → Doc
  /-- Serialization of `doc.documentElement.outerHTML`. -/
  serialize : Doc → String

/-- One output `File` object: name, bytes, `lastModified`, media type. -/
structure FileObj where
  name : String
  contents : List Nat
  lastModified : Int
  type : String
  deriving DecidableEq

/-- The `{pageName, base, pathPrefix}` record handed to every asset. -/
structure Params where
  pageName : String
  base : String
  pathPrefix : String
  deriving DecidableEq

/-! ### Asset discovery (assets.ts) -/

/-- The four referenced-asset variants of assets.ts, each holding its
source reference string(s) and the index of its owning element. -/
inductive Asset where
  | script (src : String) (idx : Nat)
  | css (href : String) (idx : Nat)
  | scss (href : String) (idx : Nat)
  | image (sources : List String) (idx : Nat)
  deriving DecidableEq

/-- Source `ScriptAsset.create`: skip script tags without `src` (inline
scripts) and remote sources. -/
def ScriptAsset.create (idx : Nat) (el : Element) : Option Asset :=
  match getAttribute el "src" with
  | none => none
  | some src =>
    if src = "" then none
    else if strStartsWith src ("http://") || strStartsWith src ("https://") then none
    else some (.script src idx)

/-- Source `CssAsset.create`: only `rel="stylesheet"` links with a
non-empty local `href`; an `.scss` href selects the preprocessed
variant. -/
def CssAsset.create (idx : Nat) (el : Element) : Option Asset :=
  match getAttribute el "rel" with
  | none => none
  | some rel =>
    if rel ≠ "stylesheet" then none
    else
      match getAttribute el "href" with
      | none => none
      | some href =>
        if href = "" then none
        else if strStartsWith href ("https://") || strStartsWith href ("http://") then none
        else if strEndsWith href (".scss") then some (.scss href idx)
        else some (.css href idx)

/-- Sources contributed by a `srcset` attribute: split on commas, drop
empty entries, trim, keep the URL before the first space, keep local
URLs only. -/
def srcsetTokens (ss : String) : List String :=
  ((((splitOnChar ',' ss.data).filter (· ≠ [])).map jsTrimList).map
      (fun t => t.takeWhile (· ≠ ' '))).map String.mk
    |>.filter isLocalUrl

/-- Order-preserving de-duplication, the `[...new Set(sources)]` step. -/
def dedupAux : List String → List String → List String
  | [], acc => acc.reverse
  | s :: rest, acc => if acc.contains s then dedupAux rest acc else dedupAux rest (s :: acc)

/-- De-duplicate keeping first occurrences. -/
def dedup (l : List String) : List String := dedupAux l []

/-- The merged, de-duplicated local sources of an image or source node:
the local `src` value (when present and non-empty) followed by the
local `srcset` URL tokens. -/
def imageLocalSources (el : Element) : List String :=
  let s1 := match getAttribute el "src" with
    | some s => if s = "" then [] else if isLocalUrl s then [s] else []
    | none => []
  let s2 := match getAttribute el "srcset" with
    | some ss => if ss = "" then [] else srcsetTokens ss
    | none => []
  dedup (s1 ++ s2)

/-- Source `ImageAsset.create`: an `img` tag without a (truthy) `src`
attribute is skipped with a warning before the sources are collected; a
node whose merged local source list is empty yields no asset. -/
def ImageAsset.create (idx : Nat) (el : Element) : Option Asset :=
  if el.tagName = "IMG" ∧ jsFalsyOpt (getAttribute el "src") = true then none
  else
    let sources := imageLocalSources el
    if sources = [] then none else some (.image sources idx)

/-- Elements of a given tag, with their indices, in document order;
models `querySelectorAll` with a tag-name selector. -/
def qsIdx (doc : Doc) (tag : String) : List (Nat × Element) :=
  doc.enum.filter (fun ie => ie.2.tagName == tag)

/-- Source `extractReferencedScripts`. -/
def extractReferencedScripts (doc : Doc) : List Asset :=
  (qsIdx doc "SCRIPT").filterMap (fun ie => ScriptAsset.create ie.1 ie.2)

/-- Source `extractReferencedStyleSheets`. -/
def extractReferencedStyleSheets (doc : Doc) : List Asset :=
  (qsIdx doc "LINK").filterMap (fun ie => CssAsset.create ie.1 ie.2)

/-- Source `extractReferencedImages`: all `img` nodes first, then all
`source` nodes, each run in document order. -/
def extractReferencedImages (doc : Doc) : List Asset :=
  (qsIdx doc "IMG" ++ qsIdx doc "SOURCE").filterMap (fun ie => ImageAsset.create ie.1 ie.2)

/-- Source `extractReferencedAssets`: scripts, then stylesheet links,
then images. -/
def extractReferencedAssets (doc : Doc) : List Asset :=
  extractReferencedScripts doc ++ extractReferencedStyleSheets doc ++
    extractReferencedImages doc

/-! ### Artifact production (createFileObject, per variant) -/

/-- Source `CssAsset.createFileObject`: read the referenced file, md5
it, name the output `{pageName}.{digest}.css`, rewrite `href` to the
posix join of the path prefix and the new name, and emit one file with
media type `text/css` and `lastModified: 0`. -/
def CssAsset.createFileObject (env : Env) (href : String) (idx : Nat) (doc : Doc)
    (p : Params) : Option (Doc × List FileObj) :=
  match env.fs (pathJoin p.base href) with
  | none => none
  | some data =>
    let hashed := env.digest data
    let dest := p.pageName ++ "." ++ hashed ++ ".css"
    let doc := updateAt doc idx (fun e => setAttribute e "href" (posixPathJoin p.pathPrefix dest))
    some (doc, [{ name := dest, contents := data, lastModified := 0, type := "text/css" }])

/-- Source `ScssAsset.createFileObject`: like the stylesheet case, but
the digest is of the raw scss bytes while the emitted bytes are the
sass compiler output of the decoded source; the name still carries the
`.css` extension. -/
def ScssAsset.createFileObject (env : Env) (href : String) (idx : Nat) (doc : Doc)
    (p : Params) : Option (Doc × List FileObj) :=
  match env.fs (pathJoin p.base href) with
  | none => none
  | some scss =>
    let hashed := env.digest scss
    let dest := p.pageName ++ "." ++ hashed ++ ".css"
    let doc := updateAt doc idx (fun e => setAttribute e "href" (posixPathJoin p.pathPrefix dest))
    match env.compileSass (env.decode scss) with
    | none => none
    | some css =>
      some (doc, [{ name := dest, contents := css, lastModified := 0, type := "text/css" }])

/-- Source `ScriptAsset.createFileObject`: bundle the referenced entry
file with esbuild, md5 the bundle, name it `{pageName}.{digest}.js`,
rewrite `src`, and emit one `application/javascript` file. -/
def ScriptAsset.createFileObject (env : Env) (src : String) (idx : Nat) (doc : Doc)
    (p : Params) : Option (Doc × List FileObj) :=
  match env.bundle (pathJoin p.base src) with
  | none => none
  | some data =>
    let hashed := env.digest data
    let dest := p.pageName ++ "." ++ hashed ++ ".js"
    let doc := updateAt doc idx (fun e => setAttribute e "src" (posixPathJoin p.pathPrefix dest))
    some (doc, [{ name := dest, contents := data, lastModified := 0,
                  type := "application/javascript" }])

/-- The extension the image loop derives from a source path with the
regular expression for a final dot followed by word characters: the
characters after the last dot, accepted only when non-empty and all
word characters. -/
def matchExtension (s : String) : Option String :=
  match extAfterLastDot s.data with
  | some e => if e ≠ [] ∧ e.all isWordChar then some (String.mk e) else none
  | none => none
where
  /-- Word characters of the regular-expression character class. -/
  isWordChar (c : Char) : Bool := c.isAlphanum || c = '_'
  /-- Characters after the last dot, when a dot exists. -/
  extAfterLastDot : List Char → Option (List Char)
    | [] => none
    | c :: rest =>
      match extAfterLastDot rest with
      | some e => some e
      | none => if c = '.' then some rest else none

/-- The conditional `src` rewrite of the image loop: the node `src` is
overwritten with the joined destination whenever the present attribute
value matches the processed source used as a pattern (the source line
calls `attribute.match(src)`). -/
def srcRewriteStep (doc : Doc) (idx : Nat) (src J : String) : Doc :=
  if (match getAttribute (getElemD doc idx) "src" with
      | some v => jsRegexTest src v
      | none => false) then
    updateAt doc idx (fun e => setAttribute e "src" J)
  else doc

/-- The conditional `srcset` rewrite of the image loop: when the
current `srcset` value contains the processed source as a substring,
its first literal occurrence is replaced by the joined destination. -/
def srcsetRewriteStep (doc1 : Doc) (idx : Nat) (src J : String) : Doc :=
  match getAttribute (getElemD doc1 idx) "srcset" with
  | some ss =>
    if jsIncludes ss src then
      updateAt doc1 idx (fun e => setAttribute e "srcset" (jsReplaceFirst ss src J))
    else doc1
  | none => doc1

/-- One iteration of the image loop of `ImageAsset.createFileObject`:
read the source bytes, derive the extension (the JavaScript template
literal stringifies a missing match as `undefined`), build the output
name, run the `src` rewrite and then the `srcset` rewrite on the owning
node, and append the output file. -/
def ImageAsset.processSource (env : Env) (idx : Nat) (p : Params) (src : String)
    (doc : Doc) (files : List FileObj) : Option (Doc × List FileObj) :=
  match env.fs (pathJoin p.base src) with
  | none => none
  | some data =>
    let extStr := (matchExtension src).getD "undefined"
    let hashed := env.digest data
    let dest := p.pageName ++ "." ++ hashed ++ "." ++ extStr
    some (srcsetRewriteStep
            (srcRewriteStep doc idx src (posixPathJoin p.pathPrefix dest))
            idx src (posixPathJoin p.pathPrefix dest),
          files ++ [{ name := dest, contents := data, lastModified := 0,
                      type := "image/" ++ extStr }])

/-- The image loop over the stored sources, threading the document and
accumulating one output file per source; a failing read aborts. -/
def ImageAsset.processSources (env : Env) (idx : Nat) (p : Params) :
    List String → Doc → List FileObj → Option (Doc × List FileObj)
  | [], doc, files => some (doc, files)
  | src :: rest, doc, files =>
    match ImageAsset.processSource env idx p src doc files with
    | none => none
    | some (d, fs) => ImageAsset.processSources env idx p rest d fs

/-- Source `ImageAsset.createFileObject`. -/
def ImageAsset.createFileObject (env : Env) (sources : List String) (idx : Nat)
    (doc : Doc) (p : Params) : Option (Doc × List FileObj) :=
  ImageAsset.processSources env idx p sources doc []

/-- Dispatch of `createFileObject` over the asset variants. -/
def Asset.createFileObject (env : Env) (p : Params) : Asset → Doc → Option (Doc × List FileObj)
  | .script src idx, doc => ScriptAsset.createFileObject env src idx doc p
  | .css href idx, doc => CssAsset.createFileObject env href idx doc p
  | .scss href idx, doc => ScssAsset.createFileObject env href idx doc p
  | .image sources idx, doc => ImageAsset.createFileObject env sources idx doc p

/-! ### HtmlAsset and the generation pipeline -/

/-- The entry document state of the `HtmlAsset` class. -/
structure HtmlAsset where
  doc : Doc
  path : String
  base : String
  filename : String
  pageName : String
  deriving DecidableEq

/-- The guarded suffix strip `filename.replace(html-extension-anchor,
empty)` of the constructor. -/
def replaceHtmlSuffix (s : String) : String :=
  if strEndsWith s (".html") then strDropRight s 5 else s

/-- The `HtmlAsset` constructor: parse the html, record path, base and
filename, throw when the filename does not end in the html extension or
the page name strips to empty. -/
def HtmlAsset.build (env : Env) (html path : String) : Option HtmlAsset :=
  let filename := basename path
  if strEndsWith filename (".html") then
    let pageName := replaceHtmlSuffix filename
    if pageName = "" then none
    else some { doc := env.parse html, path := path, base := dirname path,
                filename := filename, pageName := pageName }
  else none

/-- Source `HtmlAsset.create`: read and decode the entrypoint, then run
the constructor. -/
def HtmlAsset.create (env : Env) (path : String) : Option HtmlAsset :=
  match env.fs path with
  | none => none
  | some bytes => HtmlAsset.build env (env.decode bytes) path

/-- The constant `docType` byte string prepended to the html output. -/
def docType : List Nat := utf8Encode ("<!DOCTYPE html>")

/-- Source `HtmlAsset.createFileObject`: one `text/html` file named
after the entry filename whose bytes are the doctype followed by the
serialized document, with `lastModified: 0`. -/
def HtmlAsset.createFileObject (env : Env) (filename : String) (doc : Doc) : List FileObj :=
  [{ name := filename, contents := docType ++ utf8Encode (env.serialize doc),
     lastModified := 0, type := "text/html" }]

/-- The generation options consumed inside `generateAssets` (the watch
and build-hook options only affect the watch list and logging). -/
structure GenOpts where
  insertLivereloadScript : Bool
  livereloadPort : Nat
  mainAs404 : Bool
  publicUrl : String
  deriving DecidableEq

/-- Source `insertScriptTag`: append a script element referencing the
livereload endpoint as the last child of the body. -/
def insertScriptTag (doc : Doc) (url : String) : Doc :=
  doc ++ [{ tagName := "SCRIPT", attrs := [("src", url)] }]

/-- The asset half of the generator loop: run `createFileObject` on
every discovered asset in discovery order, threading the shared
document and concatenating the yielded files; a failure aborts the
cycle. -/
def produceAssets (env : Env) (p : Params) :
    List Asset → Doc → List FileObj → Option (Doc × List FileObj)
  | [], doc, files => some (doc, files)
  | a :: rest, doc, files =>
    match Asset.createFileObject env p a doc with
    | none => none
    | some (d, nf) => produceAssets env p rest d (files ++ nf)

/-- The clock-independent part of `generateAssets`: create the entry
document, discover its assets, optionally append the livereload script
tag, produce every asset artifact and then the final html artifact. -/
def genCore (env : Env) (path : String) (opts : GenOpts) :
    Option (List FileObj × List FileObj) :=
  match HtmlAsset.create env path with
  | none => none
  | some ha =>
    match produceAssets env
        { pageName := ha.pageName, base := ha.base,
          pathPrefix := if opts.publicUrl = "" then "." else opts.publicUrl }
        (extractReferencedAssets ha.doc)
        (if opts.insertLivereloadScript then
            insertScriptTag ha.doc
              ("http://localhost:" ++ toString opts.livereloadPort ++ "/livereload.js")
          else ha.doc) [] with
    | none => none
    | some (doc1, afiles) => some (afiles, HtmlAsset.createFileObject env ha.filename doc1)

/-- Source `generateAssets`, as the ordered list of files the returned
generator yields: every asset artifact, then the html artifact, then —
when `mainAs404` is set — a copy of the html bytes under the name
`404`.  The copy is built as `new File` over an object-spread of the
html `File`; spreading a `File` copies none of its own enumerable
properties, so the options bag is empty and the constructor defaults
`lastModified` to the clock value `now` and the media type to the empty
string. -/
def generateAssets (env : Env) (now : Int) (path : String) (opts : GenOpts) :
    Option (List FileObj) :=
  match genCore env path opts with
  | none => none
  | some (afiles, hfiles) =>
    if opts.mainAs404 then
      some (afiles ++ hfiles ++
        [{ name := "404",
           contents := (hfiles.headD { name := "", contents := [],
                                       lastModified := 0, type := "" }).contents,
           lastModified := now, type := "" }])
    else some (afiles ++ hfiles)

/-! ### Concrete fixtures used to witness the theorems -/

/-- A tiny concrete environment: a few readable files, a digest that
reports the byte count, a constant bundler and sass compiler, an empty
parse and serialization. -/
def envW : Env where
  fs := fun s =>
    if s = "index.html" then some [7]
    else if s = "a.css" then some [1, 2]
    else if s = "style.scss" then some [6, 6, 6]
    else if s = "photo.png" then some [3]
    else if s = "x" then some [4]
    else if s = "a.png" then some [5]
    else none
  digest := fun d => "h" ++ toString d.length
  bundle := fun _ => some [9, 9]
  compileSass := fun _ => some [8]
  decode := fun _ => ""
  parse := fun _ => []
  serialize := fun _ => ""

/-- Concrete generation parameters. -/
def pW : Params := { pageName := "index", base := ".", pathPrefix := "." }

/-- A stylesheet link document before production. -/
def docCssW : Doc := [{ tagName := "LINK", attrs := [("rel", "stylesheet"), ("href", "a.css")] }]

/-- The stylesheet link document after production. -/
def docCssW1 : Doc :=
  [{ tagName := "LINK", attrs := [("rel", "stylesheet"), ("href", "index.h2.css")] }]

/-- The stylesheet artifact produced from `docCssW`. -/
def fCssW : FileObj :=
  { name := "index.h2.css", contents := [1, 2], lastModified := 0, type := "text/css" }

/-- A script document before production. -/
def docJsW : Doc := [{ tagName := "SCRIPT", attrs := [("src", "s.js")] }]

/-- The script document after production. -/
def docJsW1 : Doc := [{ tagName := "SCRIPT", attrs := [("src", "index.h2.js")] }]

/-- The script artifact produced from `docJsW`. -/
def fJsW : FileObj :=
  { name := "index.h2.js", contents := [9, 9], lastModified := 0,
    type := "application/javascript" }

/-- An image document before production. -/
def docImgW : Doc := [{ tagName := "IMG", attrs := [("src", "photo.png")] }]

/-- The image document after production. -/
def docImgW1 : Doc := [{ tagName := "IMG", attrs := [("src", "index.h1.png")] }]

/-- The image artifact produced from `docImgW`. -/
def fImgW : FileObj :=
  { name := "index.h1.png", contents := [3], lastModified := 0, type := "image/png" }

/-- Claim-side definition, following the words of the specification:
the image assets of a document collected from its img and source nodes
in one document-order pass. -/
def imagesInDocumentOrder (doc : Doc) : List Asset :=
  (doc.enum.filter (fun ie => ie.2.tagName == "IMG" || ie.2.tagName == "SOURCE")).filterMap
    (fun ie => ImageAsset.create ie.1 ie.2)
/-- A document in which a source node precedes an img node. -/
def docC4 : Doc :=
  [{ tagName := "SOURCE", attrs := [("srcset", "b.png 1x")] },
   { tagName := "IMG", attrs := [("src", "a.png")] }]
/-- An img node with a local srcset but no src attribute. -/
def elC5 : Element := { tagName := "IMG", attrs := [("srcset", "a.png 1x")] }
/-- An img node whose src is remote but contains a srcset source as a
regex match. -/
def elC6 : Element :=
  { tagName := "IMG", attrs := [("src", "http://x/my-photo.png"), ("srcset", "photo.png 1x")] }
/-- The node of `elC6` after the source `photo.png` is processed. -/
def elC6out : Element :=
  { tagName := "IMG", attrs := [("src", "index.h1.png"), ("srcset", "index.h1.png 1x")] }
/-- The img node of the C7 counterexample: its src is a file named `x`
and its srcset descriptor `2x` contains that source as a substring. -/
def elC7 : Element := { tagName := "IMG", attrs := [("src", "x"), ("srcset", "a.png 2x")] }
/-- The node of `elC7` after the source `x` is processed. -/
def elC7out : Element :=
  { tagName := "IMG",
    attrs := [("src", "index.h1.undefined"), ("srcset", "a.png 2index.h1.undefined")] }
/-- The artifact produced for the source `x` of `elC7`. -/
def fC7W : FileObj :=
  { name := "index.h1.undefined", contents := [4], lastModified := 0,
    type := "image/undefined" }
/-- Descriptor tokens of a srcset value: for each comma entry, the part
after the URL token.  Claim-side definition used to state that sibling
descriptor tokens survive a rewrite. -/
def srcsetDescriptors (ss : String) : List String :=
  ((splitOnChar ',' ss.data).map jsTrimList).map
    (fun t => String.mk ((t.dropWhile (· ≠ ' ')).dropWhile (· = ' ')))
/-- A stylesheet link referencing an scss source. -/
def elScssW : Element :=
  { tagName := "LINK", attrs := [("rel", "stylesheet"), ("href", "style.scss")] }
/-- The link of `elScssW` after production. -/
def elScssW1 : Element :=
  { tagName := "LINK", attrs := [("rel", "stylesheet"), ("href", "index.h3.css")] }

/-! ### Basic lemmas about the document model -/

theorem length_updateAt (l : Doc) (i : Nat) (f : Element → Element) :
    (updateAt l i f).length = l.length := by
  induction l generalizing i with
  | nil => simp [updateAt]
  | cons e rest ih =>
    cases i with
    | zero => simp [updateAt]
    | succ n => simpa [updateAt] using ih n

theorem getElemD_updateAt (l : Doc) (i : Nat) (f : Element → Element)
    (h : i < l.length) : getElemD (updateAt l i f) i = f (getElemD l i) := by
  induction l generalizing i with
  | nil => simp at h
  | cons e rest ih =>
    cases i with
    | zero => simp [updateAt, getElemD]
    | succ n =>
      simp only [updateAt, getElemD]
      exact ih n (by simpa using h)

theorem lookupAttr_map_set (n v : String) :
    ∀ attrs : List (String × String), attrs.any (fun kv => kv.1 = n) = true →
      lookupAttr n (attrs.map (fun kv => if kv.1 = n then (n, v) else kv)) = some v := by
  intro attrs h
  induction attrs with
  | nil => simp at h
  | cons kv rest ih =>
    obtain ⟨k, w⟩ := kv
    simp only [List.map_cons]
    by_cases hk : k = n
    · subst hk
      rw [show (if (k, w).1 = k then (k, v) else (k, w)) = (k, v) from if_pos rfl]
      simp [lookupAttr]
    · have hr : rest.any (fun kv => kv.1 = n) = true := by
        simp only [List.any_cons, Bool.or_eq_true, decide_eq_true_eq] at h
        rcases h with h | h
        · exact absurd h hk
        · exact h
      rw [show (if (k, w).1 = n then (n, v) else (k, w)) = (k, w) from if_neg hk]
      simpa [lookupAttr, hk] using ih hr

theorem lookupAttr_append_single (n v : String) :
    ∀ attrs : List (String × String), attrs.any (fun kv => kv.1 = n) = false →
      lookupAttr n (attrs ++ [(n, v)]) = some v := by
  intro attrs h
  induction attrs with
  | nil => simp [lookupAttr]
  | cons kv rest ih =>
    obtain ⟨k, w⟩ := kv
    simp only [List.any_cons, Bool.or_eq_false_iff, decide_eq_false_iff_not] at h
    simp [lookupAttr, h.1, ih h.2]

theorem getAttribute_setAttribute_same (el : Element) (n v : String) :
    getAttribute (setAttribute el n v) n = some v := by
  unfold getAttribute setAttribute
  cases hany : el.attrs.any (fun kv => kv.1 = n) with
  | true => simpa [hany] using lookupAttr_map_set n v el.attrs hany
  | false => simpa [hany] using lookupAttr_append_single n v el.attrs hany

theorem lookupAttr_map_set_ne {m n : String} (v : String) (h : m ≠ n) :
    ∀ attrs : List (String × String),
      lookupAttr m (attrs.map (fun kv => if kv.1 = n then (n, v) else kv)) =
        lookupAttr m attrs := by
  intro attrs
  induction attrs with
  | nil => simp [lookupAttr]
  | cons kv rest ih =>
    obtain ⟨k, w⟩ := kv
    simp only [List.map_cons]
    by_cases hk : k = n
    · subst hk
      rw [show (if (k, w).1 = k then (k, v) else (k, w)) = (k, v) from if_pos rfl]
      have hkm : ¬ k = m := fun e => h e.symm
      simp [lookupAttr, hkm, ih]
    · rw [show (if (k, w).1 = n then (n, v) else (k, w)) = (k, w) from if_neg hk]
      by_cases hkm : k = m
      · simp [lookupAttr, hkm]
      · simp [lookupAttr, hkm, ih]

theorem getAttribute_setAttribute_ne (el : Element) {m n : String} (v : String)
    (h : m ≠ n) : getAttribute (setAttribute el n v) m = getAttribute el m := by
  unfold getAttribute setAttribute
  cases hany : el.attrs.any (fun kv => kv.1 = n) with
  | true => simpa [hany] using lookupAttr_map_set_ne v h el.attrs
  | false =>
    simp only [hany, Bool.false_eq_true, if_false]
    have hnm : ¬ n = m := fun e => h e.symm
    induction el.attrs with
    | nil => simp [lookupAttr, hnm]
    | cons kv rest ih =>
      obtain ⟨k, w⟩ := kv
      by_cases hkm : k = m
      · simp [lookupAttr, hkm]
      · simp only [List.cons_append, lookupAttr, hkm, if_false]
        exact ih

/-! ### First-occurrence replacement, characterized -/

theorem replaceFirst_spec (p r : List Char) :
    ∀ s : List Char, occursIn p s = true →
      ∃ pre post, s = pre ++ p ++ post ∧
        replaceFirstList p r s = pre ++ r ++ post ∧
        ∀ pre2 post2, s = pre2 ++ p ++ post2 → pre.length ≤ pre2.length := by
  intro s
  induction s with
  | nil =>
    intro h
    simp only [occursIn, decide_eq_true_eq] at h
    subst h
    exact ⟨[], [], by simp, by simp [replaceFirstList], fun _ _ _ => Nat.zero_le _⟩
  | cons c s ih =>
    intro h
    by_cases hp : p.isPrefixOf (c :: s) = true
    · obtain ⟨t, ht⟩ : ∃ t, p ++ t = c :: s := List.isPrefixOf_iff_prefix.mp hp
      refine ⟨[], t, by simp [ht.symm], ?_, fun _ _ _ => Nat.zero_le _⟩
      simp only [replaceFirstList, hp, if_true, List.nil_append]
      rw [← ht, List.drop_left]
    · have hocc : occursIn p s = true := by
        simpa [occursIn, hp] using h
      obtain ⟨pre, post, hs, hrepl, hmin⟩ := ih hocc
      refine ⟨c :: pre, post, by simp [hs], ?_, ?_⟩
      · simp [replaceFirstList, hp, hrepl]
      · intro pre2 post2 heq
        cases pre2 with
        | nil =>
          exfalso
          apply hp
          rw [ List.isPrefixOf_iff_prefix]
          exact ⟨post2, by simpa using heq.symm⟩
        | cons c2 pre2 =>
          have hstep : s = pre2 ++ p ++ post2 := by
            have := heq
            simp only [List.cons_append, List.cons.injEq] at this
            exact this.2
          simpa [Nat.succ_le_succ_iff] using hmin pre2 post2 hstep

/-! ### Helper lemmas about image artifact production -/

theorem processSource_files (env : Env) (idx : Nat) (p : Params) (src : String)
    (doc : Doc) (files : List FileObj) (doc1 : Doc) (files1 : List FileObj)
    (h : ImageAsset.processSource env idx p src doc files = some (doc1, files1)) :
    ∃ data, env.fs (pathJoin p.base src) = some data ∧
      files1 = files ++
        [{ name := p.pageName ++ "." ++ env.digest data ++ "." ++
              (matchExtension src).getD "undefined",
           contents := data, lastModified := 0,
           type := "image/" ++ (matchExtension src).getD "undefined" }] := by
  unfold ImageAsset.processSource at h
  cases hfs : env.fs (pathJoin p.base src) with
  | none => rw [hfs] at h; exact absurd h (by simp)
  | some data =>
    rw [hfs] at h
    simp only [Option.some.injEq, Prod.mk.injEq] at h
    exact ⟨data, rfl, h.2.symm⟩

theorem processSources_names (env : Env) (idx : Nat) (p : Params) :
    ∀ (sources : List String) (doc : Doc) (files : List FileObj) (doc1 : Doc)
      (files1 : List FileObj),
      ImageAsset.processSources env idx p sources doc files = some (doc1, files1) →
      (∀ f ∈ files, ∃ ext, f.name = p.pageName ++ "." ++ env.digest f.contents ++ "." ++ ext) →
      ∀ f ∈ files1, ∃ ext, f.name = p.pageName ++ "." ++ env.digest f.contents ++ "." ++ ext := by
  intro sources
  induction sources with
  | nil =>
    intro doc files doc1 files1 h hinv
    unfold ImageAsset.processSources at h
    simp only [Option.some.injEq, Prod.mk.injEq] at h
    rw [← h.2]
    exact hinv
  | cons src rest ih =>
    intro doc files doc1 files1 h hinv
    unfold ImageAsset.processSources at h
    cases hstep : ImageAsset.processSource env idx p src doc files with
    | none => rw [hstep] at h; exact absurd h (by simp)
    | some st =>
      obtain ⟨d, fs1⟩ := st
      rw [hstep] at h
      obtain ⟨data, -, hfiles⟩ := processSource_files env idx p src doc files d fs1 hstep
      refine ih d fs1 doc1 files1 h ?_
      intro f hf
      rw [hfiles] at hf
      rcases List.mem_append.mp hf with hf | hf
      · exact hinv f hf
      · simp only [List.mem_singleton] at hf
        subst hf
        exact ⟨_, rfl⟩

/-! ### The claims -/

/-- C1: every Stylesheet, Script, and Image artifact is named
`{pageName}.{digest(content)}.{ext}` where the digest is taken of the
bytes of the artifact itself, and building the same entrypoint twice with
identical file contents (here: at two different clock readings over the
same environment) yields identical filenames. -/
theorem c1_output_filenames :
    (∀ (env : Env) (p : Params) (href : String) (idx : Nat) (doc doc1 : Doc)
        (files : List FileObj),
        CssAsset.createFileObject env href idx doc p = some (doc1, files) →
        ∀ f ∈ files, f.name = p.pageName ++ "." ++ env.digest f.contents ++ ".css")
  ∧ (∀ (env : Env) (p : Params) (src : String) (idx : Nat) (doc doc1 : Doc)
        (files : List FileObj),
        ScriptAsset.createFileObject env src idx doc p = some (doc1, files) →
        ∀ f ∈ files, f.name = p.pageName ++ "." ++ env.digest f.contents ++ ".js")
  ∧ (∀ (env : Env) (p : Params) (sources : List String) (idx : Nat) (doc doc1 : Doc)
        (files : List FileObj),
        ImageAsset.createFileObject env sources idx doc p = some (doc1, files) →
        ∀ f ∈ files, ∃ ext, f.name = p.pageName ++ "." ++ env.digest f.contents ++ "." ++ ext)
  ∧ (∀ (env : Env) (now1 now2 : Int) (path : String) (opts : GenOpts),
        (generateAssets env now1 path opts).map (fun l => l.map FileObj.name) =
          (generateAssets env now2 path opts).map (fun l => l.map FileObj.name)) := by
  refine ⟨?_, ?_, ?_, ?_⟩
  · intro env p href idx doc doc1 files h f hf
    unfold CssAsset.createFileObject at h
    cases hfs : env.fs (pathJoin p.base href) with
    | none => rw [hfs] at h; exact absurd h (by simp)
    | some data =>
      rw [hfs] at h
      simp only [Option.some.injEq, Prod.mk.injEq] at h
      rw [← h.2] at hf
      simp only [List.mem_singleton] at hf
      subst hf
      rfl
  · intro env p src idx doc doc1 files h f hf
    unfold ScriptAsset.createFileObject at h
    cases hfs : env.bundle (pathJoin p.base src) with
    | none => rw [hfs] at h; exact absurd h (by simp)
    | some data =>
      rw [hfs] at h
      simp only [Option.some.injEq, Prod.mk.injEq] at h
      rw [← h.2] at hf
      simp only [List.mem_singleton] at hf
      subst hf
      rfl
  · intro env p sources idx doc doc1 files h f hf
    exact processSources_names env idx p sources doc [] doc1 files h (by simp) f hf
  · intro env now1 now2 path opts
    unfold generateAssets
    cases hg : genCore env path opts with
    | none => rfl
    | some pr =>
      obtain ⟨afiles, hfiles⟩ := pr
      by_cases h4 : opts.mainAs404
      · simp [h4, List.map_append]
      · simp [h4]

/-- Witness for C1: each production hypothesis discharged on a concrete
stylesheet, script, and image document over the concrete environment. -/
theorem c1_output_filenames_witness :
    (∀ f ∈ [fCssW], f.name = pW.pageName ++ "." ++ envW.digest f.contents ++ ".css")
  ∧ (∀ f ∈ [fJsW], f.name = pW.pageName ++ "." ++ envW.digest f.contents ++ ".js")
  ∧ (∀ f ∈ [fImgW], ∃ ext, f.name = pW.pageName ++ "." ++ envW.digest f.contents ++ "." ++ ext) :=
  ⟨c1_output_filenames.1 envW pW ("a.css") 0 docCssW docCssW1 [fCssW] (by decide),
   c1_output_filenames.2.1 envW pW ("s.js") 0 docJsW docJsW1 [fJsW] (by decide),
   c1_output_filenames.2.2.1 envW pW (["photo.png"]) 0 docImgW docImgW1 [fImgW] (by decide)⟩

/-- C2: the claim says every artifact of a cycle carries the fixed
timestamp 0, but evaluating the pipeline with the `404` fallback
enabled at clock reading 1700000000 produces the `404` artifact with
`lastModified` equal to the clock, not 0: spreading the html `File`
object copies none of its own enumerable properties, so the `File`
constructor falls back to the current time (and the empty media
type). -/
theorem c2_fallback_timestamp_bug :
    (generateAssets envW 1700000000 ("index.html")
        { insertLivereloadScript := false, livereloadPort := 0,
          mainAs404 := true, publicUrl := "" }).map
      (fun l => l.map (fun f => (f.name, f.lastModified))) =
      some [("index.html", 0), ("404", 1700000000)] := by
  decide

/-- C3: whenever a generation cycle succeeds, its artifact list is the
artifacts of all discovered assets, followed by exactly one html
artifact whose bytes start with the doctype byte string, followed only
by the optional `404` duplicate of that html artifact. -/
theorem c3_html_artifact_last (env : Env) (now : Int) (path : String) (opts : GenOpts)
    (files : List FileObj)
    (h : generateAssets env now path opts = some files) :
    ∃ ha doc1 afiles hf,
      HtmlAsset.create env path = some ha ∧
      produceAssets env
          { pageName := ha.pageName, base := ha.base,
            pathPrefix := if opts.publicUrl = "" then "." else opts.publicUrl }
          (extractReferencedAssets ha.doc)
          (if opts.insertLivereloadScript then
              insertScriptTag ha.doc
                ("http://localhost:" ++ toString opts.livereloadPort ++ "/livereload.js")
            else ha.doc) [] = some (doc1, afiles) ∧
      hf = { name := ha.filename, contents := docType ++ utf8Encode (env.serialize doc1),
             lastModified := 0, type := "text/html" } ∧
      hf.contents.take docType.length = docType ∧
      files = afiles ++ [hf] ++
        (if opts.mainAs404 then
            [{ name := "404", contents := hf.contents, lastModified := now, type := "" }]
          else []) := by
  unfold generateAssets at h
  cases hg : genCore env path opts with
  | none => rw [hg] at h; exact absurd h (by simp)
  | some pr =>
    obtain ⟨afiles1, hfiles1⟩ := pr
    rw [hg] at h
    simp only [] at h
    unfold genCore at hg
    cases hc : HtmlAsset.create env path with
    | none => rw [hc] at hg; exact absurd hg (by simp)
    | some ha =>
      rw [hc] at hg
      simp only [] at hg
      cases hp : produceAssets env
          { pageName := ha.pageName, base := ha.base,
            pathPrefix := if opts.publicUrl = "" then "." else opts.publicUrl }
          (extractReferencedAssets ha.doc)
          (if opts.insertLivereloadScript then
              insertScriptTag ha.doc
                ("http://localhost:" ++ toString opts.livereloadPort ++ "/livereload.js")
            else ha.doc) [] with
      | none => rw [hp] at hg; exact absurd hg (by simp)
      | some pr2 =>
        obtain ⟨doc1, afiles2⟩ := pr2
        rw [hp] at hg
        simp only [Option.some.injEq, Prod.mk.injEq] at hg
        obtain ⟨hga, hgh⟩ := hg
        subst hga
        subst hgh
        refine ⟨ha, doc1, afiles2, _, rfl, hp, rfl, List.take_left _ _, ?_⟩
        simp only [HtmlAsset.createFileObject] at h
        by_cases h404 : opts.mainAs404
        · simp only [h404, if_true] at h ⊢
          simp only [Option.some.injEq] at h
          rw [← h]
          simp [List.headD]
        · simp only [h404, Bool.false_eq_true, if_false] at h ⊢
          simp only [Option.some.injEq] at h
          rw [← h]
          simp

/-- Witness for C3: the pipeline hypothesis discharged on the concrete
environment and the entry `index.html`, with no discovered assets and
no fallback. -/
theorem c3_html_artifact_last_witness :
    ∃ ha doc1 afiles hf,
      HtmlAsset.create envW ("index.html") = some ha ∧
      produceAssets envW
          { pageName := ha.pageName, base := ha.base,
            pathPrefix := if (GenOpts.mk false 0 false "").publicUrl = "" then "."
              else (GenOpts.mk false 0 false "").publicUrl }
          (extractReferencedAssets ha.doc)
          (if (GenOpts.mk false 0 false "").insertLivereloadScript then
              insertScriptTag ha.doc
                ("http://localhost:" ++
                  toString (GenOpts.mk false 0 false "").livereloadPort ++ "/livereload.js")
            else ha.doc) [] = some (doc1, afiles) ∧
      hf = { name := ha.filename, contents := docType ++ utf8Encode (envW.serialize doc1),
             lastModified := 0, type := "text/html" } ∧
      hf.contents.take docType.length = docType ∧
      [{ name := "index.html", contents := docType, lastModified := 0,
         type := "text/html" : FileObj }] = afiles ++ [hf] ++
        (if (GenOpts.mk false 0 false "").mainAs404 then
            [{ name := "404", contents := hf.contents, lastModified := 0, type := "" }]
          else []) :=
  c3_html_artifact_last envW 0 ("index.html") (GenOpts.mk false 0 false "")
    [{ name := "index.html", contents := docType, lastModified := 0, type := "text/html" }]
    (by decide)

/-! ### Lemmas about the two image rewrite steps -/

theorem length_srcRewriteStep (doc : Doc) (idx : Nat) (src J : String) :
    (srcRewriteStep doc idx src J).length = doc.length := by
  unfold srcRewriteStep
  split
  · exact length_updateAt doc idx _
  · rfl

theorem srcRewriteStep_src (doc : Doc) (idx : Nat) (src J : String) {el : Element}
    {v : String} (hlt : idx < doc.length) (hel : getElemD doc idx = el)
    (hv : getAttribute el "src" = some v) :
    getAttribute (getElemD (srcRewriteStep doc idx src J) idx) "src" =
      (if jsRegexTest src v then some J else some v) := by
  unfold srcRewriteStep
  rw [hel, hv]
  by_cases hre : jsRegexTest src v = true
  · simp only [hre, if_true]
    rw [getElemD_updateAt _ _ _ hlt, hel, getAttribute_setAttribute_same]
  · rw [Bool.not_eq_true] at hre
    simp only [hre, Bool.false_eq_true, if_false]
    rw [hel, hv]

theorem srcRewriteStep_srcset (doc : Doc) (idx : Nat) (src J : String)
    (hlt : idx < doc.length) :
    getAttribute (getElemD (srcRewriteStep doc idx src J) idx) "srcset" =
      getAttribute (getElemD doc idx) "srcset" := by
  unfold srcRewriteStep
  split
  · rw [getElemD_updateAt _ _ _ hlt,
      getAttribute_setAttribute_ne _ _ (by decide : "srcset" ≠ "src")]
  · rfl

theorem srcsetRewriteStep_src (doc1 : Doc) (idx : Nat) (src J : String)
    (hlt : idx < doc1.length) :
    getAttribute (getElemD (srcsetRewriteStep doc1 idx src J) idx) "src" =
      getAttribute (getElemD doc1 idx) "src" := by
  unfold srcsetRewriteStep
  cases hss : getAttribute (getElemD doc1 idx) "srcset" with
  | none => rfl
  | some ss =>
    by_cases hinc : jsIncludes ss src = true
    · simp only [hinc, if_true]
      rw [getElemD_updateAt _ _ _ hlt,
        getAttribute_setAttribute_ne _ _ (by decide : "src" ≠ "srcset")]
    · rw [Bool.not_eq_true] at hinc
      simp only [hinc, Bool.false_eq_true, if_false]

theorem srcsetRewriteStep_srcset (doc1 : Doc) (idx : Nat) (src J : String) {v : String}
    (hlt : idx < doc1.length)
    (hv : getAttribute (getElemD doc1 idx) "srcset" = some v)
    (hinc : jsIncludes v src = true) :
    getAttribute (getElemD (srcsetRewriteStep doc1 idx src J) idx) "srcset" =
      some (jsReplaceFirst v src J) := by
  unfold srcsetRewriteStep
  rw [hv]
  simp only [hinc, if_true]
  rw [getElemD_updateAt _ _ _ hlt, getAttribute_setAttribute_same]

/-! ### Claims C4 to C7 -/



/-- C4 counterexample: on a document whose source node precedes an img
node, discovery yields the img asset before the source asset, so the
image group is not in document order as the claim states. -/
theorem c4_counterexample :
    extractReferencedAssets docC4 = [Asset.image (["a.png"]) 1, Asset.image (["b.png"]) 0] ∧
    imagesInDocumentOrder docC4 = [Asset.image (["b.png"]) 0, Asset.image (["a.png"]) 1] ∧
    extractReferencedScripts docC4 = [] ∧
    extractReferencedStyleSheets docC4 = [] ∧
    decide (extractReferencedAssets docC4 =
      extractReferencedScripts docC4 ++ extractReferencedStyleSheets docC4 ++
        imagesInDocumentOrder docC4) = false := by
  decide

/-- C4, amended: discovery yields scripts, then stylesheet links, then
image assets — the image group being all img-node assets in document
order followed by all source-node assets in document order, not one
interleaved document-order pass. -/
theorem c4_discovery_order (doc : Doc) :
    extractReferencedAssets doc =
      (doc.enum.filter (fun ie => ie.2.tagName == "SCRIPT")).filterMap
          (fun ie => ScriptAsset.create ie.1 ie.2) ++
        ((doc.enum.filter (fun ie => ie.2.tagName == "LINK")).filterMap
            (fun ie => CssAsset.create ie.1 ie.2) ++
          ((doc.enum.filter (fun ie => ie.2.tagName == "IMG")).filterMap
              (fun ie => ImageAsset.create ie.1 ie.2) ++
            (doc.enum.filter (fun ie => ie.2.tagName == "SOURCE")).filterMap
              (fun ie => ImageAsset.create ie.1 ie.2))) := by
  unfold extractReferencedAssets extractReferencedScripts extractReferencedStyleSheets
    extractReferencedImages qsIdx
  rw [List.filterMap_append, List.append_assoc]


/-- C5 counterexample: the merged local source set of an img node with
srcset but no src is non-empty, yet no asset is discovered — the code
returns early for an img without a src attribute. -/
theorem c5_counterexample :
    imageLocalSources elC5 = ["a.png"] ∧
    ImageAsset.create 0 elC5 = none ∧
    decide (imageLocalSources elC5 = []) = false := by
  decide

/-- C5, amended: an img or source node is discovered exactly when it is
not an img node lacking a truthy src attribute and its merged,
de-duplicated local source set is non-empty; in particular an img whose
srcset references local files but which has no src attribute yields no
asset, and a node with only remote sources yields no asset. -/
theorem c5_image_discovery (idx : Nat) (el : Element) :
    (ImageAsset.create idx el).isSome = true ↔
      (¬ (el.tagName = "IMG" ∧ jsFalsyOpt (getAttribute el "src") = true) ∧
        imageLocalSources el ≠ []) := by
  unfold ImageAsset.create
  by_cases h1 : el.tagName = "IMG" ∧ jsFalsyOpt (getAttribute el "src") = true
  · simp [h1]
  · by_cases h2 : imageLocalSources el = []
    · simp [h1, h2]
    · simp [h1, h2]



/-- C6 counterexample: processing the source `photo.png` rewrites the
node src although the attribute value is a remote URL that is not equal
to the source — the code tests `attribute.match(source)`, which
succeeds on a substring, so the claimed equality condition is wrong. -/
theorem c6_counterexample :
    ImageAsset.processSource envW 0 pW ("photo.png") [elC6] [] =
      some ([elC6out], [fImgW]) ∧
    getAttribute elC6 "src" = some ("http://x/my-photo.png") ∧
    getAttribute elC6out "src" =
      some (posixPathJoin (pW.pathPrefix) ("index" ++ "." ++ envW.digest [3] ++ ".png")) ∧
    decide (("http://x/my-photo.png" : String) = "photo.png") = false := by
  decide

/-- C6, amended: during image production the owning node src attribute
is rewritten to the join of the path prefix with the new filename
exactly when the present attribute value matches the processed source
taken as a pattern (for the metacharacter-free sources the code emits,
a substring test with dot matching any character) — not only when the
attribute equals the source. -/
theorem c6_src_rewrite (env : Env) (idx : Nat) (p : Params) (src : String)
    (doc : Doc) (files : List FileObj) (doc2 : Doc) (files2 : List FileObj)
    (el : Element) (v : String) (data : List Nat)
    (hlt : idx < doc.length)
    (hel : getElemD doc idx = el)
    (hv : getAttribute el "src" = some v)
    (hfs : env.fs (pathJoin p.base src) = some data)
    (hps : ImageAsset.processSource env idx p src doc files = some (doc2, files2)) :
    getAttribute (getElemD doc2 idx) "src" =
      (if jsRegexTest src v then
          some (posixPathJoin p.pathPrefix
            (p.pageName ++ "." ++ env.digest data ++ "." ++
              (matchExtension src).getD "undefined"))
        else some v) := by
  unfold ImageAsset.processSource at hps
  rw [hfs] at hps
  simp only [Option.some.injEq, Prod.mk.injEq] at hps
  obtain ⟨hdoc, -⟩ := hps
  subst hdoc
  rw [srcsetRewriteStep_src _ _ _ _ (by rw [length_srcRewriteStep]; exact hlt)]
  exact srcRewriteStep_src doc idx src _ hlt hel hv

/-- Witness for C6, amended: the hypotheses discharged on the concrete
img node `elC6` with the source `photo.png`. -/
theorem c6_src_rewrite_witness :
    getAttribute (getElemD [elC6out] 0) "src" =
      (if jsRegexTest ("photo.png") ("http://x/my-photo.png") then
          some (posixPathJoin (pW.pathPrefix)
            (pW.pageName ++ "." ++ envW.digest [3] ++ "." ++
              (matchExtension ("photo.png")).getD "undefined"))
        else some ("http://x/my-photo.png")) :=
  c6_src_rewrite envW 0 pW ("photo.png") [elC6] [] [elC6out] [fImgW] elC6
    ("http://x/my-photo.png") [3] (by decide) (by decide) (by decide) (by decide) (by decide)





/-- C7 counterexample: processing the source `x` replaces the first
literal occurrence of `x` in the srcset value, which lies inside the
sibling descriptor token `2x`; the descriptor token is destroyed, so
the claim that sibling size/descriptor tokens are left unchanged
fails. -/
theorem c7_counterexample :
    ImageAsset.processSource envW 0 pW ("x") [elC7] [] = some ([elC7out], [fC7W]) ∧
    getAttribute elC7 "srcset" = some ("a.png 2x") ∧
    srcsetDescriptors ("a.png 2x") = ["2x"] ∧
    getAttribute elC7out "srcset" = some ("a.png 2index.h1.undefined") ∧
    srcsetDescriptors ("a.png 2index.h1.undefined") = ["2index.h1.undefined"] ∧
    decide (srcsetDescriptors ("a.png 2index.h1.undefined") =
      srcsetDescriptors ("a.png 2x")) = false := by
  decide

/-- C7, amended: when the srcset value contains the processed source,
the rewrite replaces exactly the first literal occurrence of the source
substring with the joined new filename and leaves every character
outside that occurrence unchanged; sibling tokens are therefore
preserved only when the first occurrence is not inside them. -/
theorem c7_srcset_rewrite (env : Env) (idx : Nat) (p : Params) (src : String)
    (doc : Doc) (files : List FileObj) (doc2 : Doc) (files2 : List FileObj)
    (el : Element) (v : String) (data : List Nat)
    (hlt : idx < doc.length)
    (hel : getElemD doc idx = el)
    (hv : getAttribute el "srcset" = some v)
    (hinc : jsIncludes v src = true)
    (hfs : env.fs (pathJoin p.base src) = some data)
    (hps : ImageAsset.processSource env idx p src doc files = some (doc2, files2)) :
    ∃ pre post,
      v.data = pre ++ src.data ++ post ∧
      (∀ pre2 post2, v.data = pre2 ++ src.data ++ post2 → pre.length ≤ pre2.length) ∧
      getAttribute (getElemD doc2 idx) "srcset" =
        some (String.mk (pre ++
          (posixPathJoin p.pathPrefix
            (p.pageName ++ "." ++ env.digest data ++ "." ++
              (matchExtension src).getD "undefined")).data ++ post)) := by
  unfold ImageAsset.processSource at hps
  rw [hfs] at hps
  simp only [Option.some.injEq, Prod.mk.injEq] at hps
  obtain ⟨hdoc, -⟩ := hps
  subst hdoc
  obtain ⟨pre, post, hsplit, hrepl, hmin⟩ :=
    replaceFirst_spec src.data
      (posixPathJoin p.pathPrefix
        (p.pageName ++ "." ++ env.digest data ++ "." ++
          (matchExtension src).getD "undefined")).data
      v.data hinc
  refine ⟨pre, post, hsplit, hmin, ?_⟩
  rw [srcsetRewriteStep_srcset _ _ _ _
      (by rw [length_srcRewriteStep]; exact hlt)
      (by rw [srcRewriteStep_srcset _ _ _ _ hlt, hel]; exact hv)
      hinc]
  unfold jsReplaceFirst
  rw [hrepl]

/-- Witness for C7, amended: the hypotheses discharged on the concrete
img node `elC7` with the source `x`. -/
theorem c7_srcset_rewrite_witness :
    ∃ pre post,
      ("a.png 2x" : String).data = pre ++ ("x" : String).data ++ post ∧
      (∀ pre2 post2, ("a.png 2x" : String).data = pre2 ++ ("x" : String).data ++ post2 →
        pre.length ≤ pre2.length) ∧
      getAttribute (getElemD [elC7out] 0) "srcset" =
        some (String.mk (pre ++
          (posixPathJoin (pW.pathPrefix)
            (pW.pageName ++ "." ++ envW.digest [4] ++ "." ++
              (matchExtension ("x")).getD "undefined")).data ++ post)) :=
  c7_srcset_rewrite envW 0 pW ("x") [elC7] [] [elC7out] [fC7W] elC7 ("a.png 2x") [4]
    (by decide) (by decide) (by decide) (by decide) (by decide) (by decide)

/-! ### Claims C8 to C10 -/

/-- C8: producing a preprocessed stylesheet artifact digests the raw
scss bytes, emits the compiled css bytes, names the artifact
`{pageName}.{digest}.css`, and rewrites the node href to the join of
the path prefix with that name. -/
theorem c8_scss_artifact (env : Env) (p : Params) (href : String) (idx : Nat)
    (doc doc1 : Doc) (files : List FileObj) (raw css : List Nat)
    (hlt : idx < doc.length)
    (hfs : env.fs (pathJoin p.base href) = some raw)
    (hcss : env.compileSass (env.decode raw) = some css)
    (h : ScssAsset.createFileObject env href idx doc p = some (doc1, files)) :
    files = [{ name := p.pageName ++ "." ++ env.digest raw ++ ".css", contents := css,
               lastModified := 0, type := "text/css" }] ∧
    getAttribute (getElemD doc1 idx) "href" =
      some (posixPathJoin p.pathPrefix (p.pageName ++ "." ++ env.digest raw ++ ".css")) := by
  unfold ScssAsset.createFileObject at h
  rw [hfs] at h
  simp only [] at h
  rw [hcss] at h
  simp only [Option.some.injEq, Prod.mk.injEq] at h
  obtain ⟨hdoc, hfl⟩ := h
  refine ⟨hfl.symm, ?_⟩
  rw [← hdoc, getElemD_updateAt _ _ _ hlt, getAttribute_setAttribute_same]



/-- Witness for C8: the hypotheses discharged on a concrete scss link
over the concrete environment. -/
theorem c8_scss_artifact_witness :
    [{ name := "index.h3.css", contents := [8], lastModified := 0,
       type := "text/css" : FileObj }] =
      [{ name := pW.pageName ++ "." ++ envW.digest [6, 6, 6] ++ ".css", contents := [8],
         lastModified := 0, type := "text/css" }] ∧
    getAttribute (getElemD [elScssW1] 0) "href" =
      some (posixPathJoin (pW.pathPrefix)
        (pW.pageName ++ "." ++ envW.digest [6, 6, 6] ++ ".css")) :=
  c8_scss_artifact envW pW ("style.scss") 0 [elScssW] [elScssW1]
    [{ name := "index.h3.css", contents := [8], lastModified := 0, type := "text/css" }]
    [6, 6, 6] [8] (by decide) (by decide) (by decide) (by decide)

/-- C9: building the entry document fails exactly when the entrypoint
filename does not end in the html extension or strips to an empty page
name, and on success the page name is the filename with the extension
removed. -/
theorem c9_entry_constructor (env : Env) (html path : String) :
    (HtmlAsset.build env html path = none ↔
      (strEndsWith (basename path) (".html") = false ∨
        strDropRight (basename path) 5 = "")) ∧
    (∀ ha, HtmlAsset.build env html path = some ha →
      ha.pageName = strDropRight (basename path) 5) := by
  unfold HtmlAsset.build replaceHtmlSuffix
  by_cases he : strEndsWith (basename path) (".html") = true
  · by_cases hp : strDropRight (basename path) 5 = ""
    · simp [he, hp]
    · simp only [he, if_true, hp, if_false]
      constructor
      · simp [he, hp]
      · intro ha hha
        simp only [Option.some.injEq] at hha
        rw [← hha]
  · rw [Bool.not_eq_true] at he
    simp [he]

/-- Witness for C9: the success implication discharged on the concrete
entrypoint `index.html`. -/
theorem c9_entry_constructor_witness :
    HtmlAsset.pageName
        { doc := [], path := "index.html", base := ".", filename := "index.html",
          pageName := "index" } =
      strDropRight (basename ("index.html")) 5 :=
  (c9_entry_constructor envW "" ("index.html")).2
    { doc := [], path := "index.html", base := ".", filename := "index.html",
      pageName := "index" } (by decide)

/-- C10: an image source with no word-character extension still
produces an artifact; the derived extension is the literal string
`undefined`, so the artifact is `{pageName}.{digest}.undefined` with
media type `image/undefined`. -/
theorem c10_undefined_extension (env : Env) (idx : Nat) (p : Params) (src : String)
    (doc : Doc) (files : List FileObj) (data : List Nat)
    (hext : matchExtension src = none)
    (hfs : env.fs (pathJoin p.base src) = some data) :
    (ImageAsset.processSource env idx p src doc files).isSome = true ∧
    ∀ doc2 files2, ImageAsset.processSource env idx p src doc files = some (doc2, files2) →
      files2 = files ++
        [{ name := p.pageName ++ "." ++ env.digest data ++ ".undefined",
           contents := data, lastModified := 0, type := "image/undefined" }] := by
  constructor
  · unfold ImageAsset.processSource
    rw [hfs]
    simp
  · intro doc2 files2 h
    obtain ⟨data2, hfs2, hfl⟩ := processSource_files env idx p src doc files doc2 files2 h
    rw [hfs] at hfs2
    have hde : data = data2 := by
      simpa using hfs2
    subst hde
    rw [hext] at hfl
    simp only [Option.getD_none] at hfl
    rw [String.append_assoc (p.pageName ++ "." ++ env.digest data) "." ("undefined")] at hfl
    exact hfl

/-- Witness for C10: the hypotheses discharged on the extensionless
source `x` over the concrete environment. -/
theorem c10_undefined_extension_witness :
    (ImageAsset.processSource envW 0 pW ("x") [elC7] []).isSome = true ∧
    ∀ doc2 files2, ImageAsset.processSource envW 0 pW ("x") [elC7] [] = some (doc2, files2) →
      files2 = [] ++
        [{ name := pW.pageName ++ "." ++ envW.digest [4] ++ ".undefined",
           contents := [4], lastModified := 0, type := "image/undefined" }] :=
  c10_undefined_extension envW 0 pW ("x") [elC7] [] [4] (by decide) (by decide)

end Packup
